import Mathlib

/-!
# asteroids_instanced.cpp: the instanced transform-update pipeline

A shallow embedding of `src/4.advanced_opengl/10.3.asteroids_instanced/asteroids_instanced.cpp`.

Conventions of the embedding.

* `glm::mat4` is a 4x4 matrix over a commutative ring `R`; the entries of the matrices are
  idealised as exact elements of `R`, the trigonometric values entering as parameters
  `c = cos angle`, `s = sin angle`.  The entry `m[col][row]` of glm is the entry `M row col`
  here, so that glm's `operator*` is the matrix product.  The ring radius of line 132 is
  computed in an ordered field `K`.
* The `float` arithmetic of the generator's displacement (lines 136-141) is not idealised:
  its operations are the fields of a parameter `FloatOps`.
* `int` and `unsigned int` values are integers (`Int`, `Nat`) with the 32-bit conversions
  made explicit where a value can leave the range of `int`: the cast `(int)amount`, the
  product `nums_per_group * rotate_limit`, the comparison `i < end` of an `unsigned int`
  with an `int`, and the size of the upload (`toInt32`, `toUInt32`).  The two divisions
  (lines 122, 131) are exact for every `amount` below `2^31`.
* Arrays are lists; every array access is checked, an out-of-range access makes the enclosing
  operation return `none`.
* The device buffer behind `buffer` is an explicit list of matrices, counted in matrices
  rather than bytes.
* Wall-clock profiling (`FStat`, `now()`), console output and rendering are left out: they
  influence none of the modelled variables.
* GLM, OpenGL, GLFW and `learnopengl/camera.h` are not among the sources.  What the modelled
  code needs of them is defined here after their documented behaviour and marked as such; the
  functions `sin`, `cos` and the values of `rand()` are parameters.
-/

namespace AsteroidsInstanced

/-- The type `glm::mat4`, entries in `R`. -/
abbrev Mat4 (R : Type) := Matrix (Fin 4) (Fin 4) R

/-! ## Globals (lines 34-36) -/

/-- Line 35: `int rotate_group = 8;` (never written afterwards). -/
def rotate_group : Int := 8

/-- Line 36: the initial value of `int rotate_limit = 1;`. -/
def rotate_limit_init : Int := 1

/-! ## `glm::rotate` -/

/-- Modelled from the spec: `glm::rotate(m, angle, v)` is a function of the GLM library
(`gtc/matrix_transform`), absent from the sources; the spec (4.3) calls its result
`RotationMatrix(fixed_small_angle, (0,1,0))`, a yaw rotation.  The definition follows GLM,
with `c = cos angle`, `s = sin angle` and `axis = normalize v` handed in: GLM builds the 3x3
block `Rotate` entry by entry and returns `m * Rotate`, the last column of `m` kept. -/
def glm_rotate {R : Type} [CommRing R] (m : Mat4 R) (c s : R) (axis : Fin 3 → R) : Mat4 R :=
  let temp : Fin 3 → R := fun k => (1 - c) * axis k
  let Rotate : Mat4 R := Matrix.of fun row col =>
    match col, row with
    | 0, 0 => c + temp 0 * axis 0
    | 0, 1 => temp 0 * axis 1 + s * axis 2
    | 0, 2 => temp 0 * axis 2 - s * axis 1
    | 1, 0 => temp 1 * axis 0 - s * axis 2
    | 1, 1 => c + temp 1 * axis 1
    | 1, 2 => temp 1 * axis 2 + s * axis 0
    | 2, 0 => temp 2 * axis 0 + s * axis 1
    | 2, 1 => temp 2 * axis 1 - s * axis 0
    | 2, 2 => c + temp 2 * axis 2
    | 3, 3 => 1
    | _, _ => 0
  m * Rotate

/-- Line 191: `glm::mat4 rot = glm::rotate(glm::mat4(1), 0.002f, glm::vec3(0, 1, 0));`
with `c = cos 0.002`, `s = sin 0.002`; the axis `(0,1,0)` is already of unit length. -/
def rot {R : Type} [CommRing R] (c s : R) : Mat4 R :=
  glm_rotate (1 : Mat4 R) c s ![0, 1, 0]

/-! ## Machine integers -/

/-- Conversion of an integer value to `int` (32 bits, two's complement): what the cast
`(int)amount` yields, and what an `int` operation that leaves the range wraps to. -/
def toInt32 (x : Int) : Int := (x + 2147483648) % 4294967296 - 2147483648

/-- Conversion of an integer value to `unsigned int` (32 bits): what the comparison of an
`unsigned int` with an `int` does to the `int`. -/
def toUInt32 (x : Int) : Nat := (x % 4294967296).toNat

/-! ## The per-frame update `UpdatePos` (lines 189-206) -/

/-- Line 122: `int nums_per_group = amount / rotate_group;`.  The division is undefined for
`rotate_group = 0`; a negative `rotate_group` is outside what the embedding covers.  For
`amount` below `2^31` the quotient is in the range of `int`. -/
def nums_per_group (amount : Nat) (rotate_group : Int) : Option Int :=
  if rotate_group ≤ 0 then none else some ((amount : Int) / rotate_group)

/-- Line 192: `int start = 0;`. -/
def UpdatePos_start : Int := 0

/-- Line 193: `int end = std::min((int)amount, 0 + nums_per_group * rotate_limit);`.  The
cast of the `unsigned int amount` is a conversion to `int`; the `int` product and sum wrap
to 32 bits. -/
def UpdatePos_end (amount : Nat) (nums_per_group rotate_limit : Int) : Int :=
  min (toInt32 (amount : Int)) (toInt32 (0 + toInt32 (nums_per_group * rotate_limit)))

/-- Lines 194-198, the loop body run `n` times from index `i` on:
`glm::mat4 model = modelMatrices[i]; modelMatrices[i] = rot * model;`. -/
def rotateLoop {R : Type} [CommRing R] (rot : Mat4 R) :
    Nat → Nat → List (Mat4 R) → Option (List (Mat4 R))
  | 0, _, modelMatrices => some modelMatrices
  | n + 1, i, modelMatrices =>
    match modelMatrices[i]? with
    | none => none
    | some model => rotateLoop rot n (i + 1) (modelMatrices.set i (rot * model))

/-- Lines 192-198: the host side of `UpdatePos`.  In
`for (unsigned int i = start; i < end; i++)` the counter starts at `start` converted to
`unsigned int` and is compared with `end` converted to `unsigned int`, so the body runs for
`i = start, ..., (unsigned)end - 1`; a negative `end` becomes a bound of at least `2^31`. -/
def UpdatePos_host {R : Type} [CommRing R] (c s : R) (amount : Nat)
    (nums_per_group rotate_limit : Int) (modelMatrices : List (Mat4 R)) :
    Option (List (Mat4 R)) :=
  let start := UpdatePos_start
  let end_ := UpdatePos_end amount nums_per_group rotate_limit
  rotateLoop (rot c s) (toUInt32 end_ - toUInt32 start) (toUInt32 start) modelMatrices

/-! ## The device buffer -/

/-- Modelled from the spec: the OpenGL call
`glBufferData(GL_ARRAY_BUFFER, size, data, usage)` is absent from the sources; it is the
spec's `Initialize(capacity N, initial data)` (4.2), which allocates device storage for `N`
matrices and uploads the full initial array once.  New storage of `size` matrices, filled
from `data`; reading past the end of `data` is an error. -/
def glBufferData {M : Type} (size : Nat) (data : List M) : Option (List M) :=
  if size ≤ data.length then some (data.take size) else none

/-- Modelled from the spec: the OpenGL call
`glBufferSubData(GL_ARRAY_BUFFER, offset, size, data)` is absent from the sources; it is the
spec's `UpdateRange(offset, count, data)` (4.2), which overwrites `count` matrices starting
at `offset` in the device copy without reallocating and without touching the other ranges,
`offset + count > N` being an error.  The `size` matrices from `offset` on are overwritten
by the first `size` matrices of `data`; a range that does not fit the storage
(`GL_INVALID_VALUE`) or the data is an error. -/
def glBufferSubData {M : Type} (buffer : List M) (offset size : Nat) (data : List M) :
    Option (List M) :=
  if offset + size ≤ buffer.length ∧ size ≤ data.length then
    some (buffer.take offset ++ data.take size ++ buffer.drop (offset + size))
  else none

/-! ## Program state -/

/-- Modelled from the spec: GLFW constant `GLFW_RELEASE` of `glfw3.h`, absent from the
sources; the spec (6) leaves the input collaborator's codes open, the value is the header's. -/
def GLFW_RELEASE : Int := 0
/-- Modelled from the spec: GLFW constant `GLFW_PRESS` of `glfw3.h`, absent from the
sources; the spec (6) leaves the input collaborator's codes open, the value is the header's. -/
def GLFW_PRESS : Int := 1
/-- Modelled from the spec: GLFW constant `GLFW_CURSOR_NORMAL` of `glfw3.h`, absent from the
sources; the spec (6) leaves the input collaborator's codes open, the value is the header's. -/
def GLFW_CURSOR_NORMAL : Int := 212993
/-- Modelled from the spec: GLFW constant `GLFW_CURSOR_DISABLED` of `glfw3.h`, absent from the
sources; the spec (6) leaves the input collaborator's codes open, the value is the header's. -/
def GLFW_CURSOR_DISABLED : Int := 212995
/-- Modelled from the spec: GLFW constant `GLFW_MOUSE_BUTTON_LEFT` of `glfw3.h`, absent from the
sources; the spec (6) leaves the input collaborator's codes open, the value is the header's. -/
def GLFW_MOUSE_BUTTON_LEFT : Int := 0
/-- Modelled from the spec: key code `GLFW_KEY_A` of `glfw3.h`, absent from the sources;
the spec (6) leaves the key codes open, the value is the header's. -/
def GLFW_KEY_A : Nat := 65
/-- Modelled from the spec: key code `GLFW_KEY_D` of `glfw3.h`, absent from the sources;
the spec (6) leaves the key codes open, the value is the header's. -/
def GLFW_KEY_D : Nat := 68
/-- Modelled from the spec: key code `GLFW_KEY_P` of `glfw3.h`, absent from the sources;
the spec (6) leaves the key codes open, the value is the header's. -/
def GLFW_KEY_P : Nat := 80
/-- Modelled from the spec: key code `GLFW_KEY_S` of `glfw3.h`, absent from the sources;
the spec (6) leaves the key codes open, the value is the header's. -/
def GLFW_KEY_S : Nat := 83
/-- Modelled from the spec: key code `GLFW_KEY_W` of `glfw3.h`, absent from the sources;
the spec (6) leaves the key codes open, the value is the header's. -/
def GLFW_KEY_W : Nat := 87
/-- Modelled from the spec: key code `GLFW_KEY_ESCAPE` of `glfw3.h`, absent from the sources;
the spec (6) leaves the key codes open, the value is the header's. -/
def GLFW_KEY_ESCAPE : Nat := 256
/-- Modelled from the spec: key code `GLFW_KEY_TAB` of `glfw3.h`, absent from the sources;
the spec (6) leaves the key codes open, the value is the header's. -/
def GLFW_KEY_TAB : Nat := 258
/-- Modelled from the spec: key code `GLFW_KEY_PAGE_UP` of `glfw3.h`, absent from the sources;
the spec (6) leaves the key codes open, the value is the header's. -/
def GLFW_KEY_PAGE_UP : Nat := 266
/-- Modelled from the spec: key code `GLFW_KEY_PAGE_DOWN` of `glfw3.h`, absent from the sources;
the spec (6) leaves the key codes open, the value is the header's. -/
def GLFW_KEY_PAGE_DOWN : Nat := 267

/-- Modelled from the spec: the enum `Camera_Movement` of `learnopengl/camera.h`, absent
from the sources; the spec (6) has the camera accept movement deltas and keeps it opaque. -/
inductive Camera_Movement
  | FORWARD
  | BACKWARD
  | LEFT
  | RIGHT
  deriving DecidableEq, Repr

/-- The variables the modelled code reads and writes: the host array `modelMatrices`, the
device storage of `buffer`, the global `rotate_limit`, the cursor mode of the window, the
table `g_last_key_states` (every key code used is below `GLFW_KEY_LAST`, so the table is a
total map here), the close flag of the window and the `camera.ProcessKeyboard` calls made. -/
structure State (R : Type) where
  modelMatrices : List (Mat4 R)
  buffer : List (Mat4 R)
  rotate_limit : Int
  cursor_mode : Int
  g_last_key_states : Nat → Int
  window_should_close : Bool
  camera_moves : List Camera_Movement

/-- Lines 189-206, `UpdatePos`: the rotate loop, then
`glBufferSubData(GL_ARRAY_BUFFER, sizeof(glm::mat4) * start, (end - start) * sizeof(glm::mat4),
&modelMatrices[start])`.  The lambda captures `amount` and `nums_per_group` by value and
reads the global `rotate_limit`.  The `int` difference `end - start` is widened with its
sign, so a negative difference is a negative size, which OpenGL refuses
(`GL_INVALID_VALUE`). -/
def UpdatePos {R : Type} [CommRing R] (c s : R) (amount : Nat) (nums_per_group : Int)
    (st : State R) : Option (State R) :=
  let start := UpdatePos_start
  let end_ := UpdatePos_end amount nums_per_group st.rotate_limit
  match UpdatePos_host c s amount nums_per_group st.rotate_limit st.modelMatrices with
  | none => none
  | some ms =>
    if toInt32 (end_ - start) < 0 then none
    else
      match glBufferSubData st.buffer start.toNat (toInt32 (end_ - start)).toNat
          (ms.drop start.toNat) with
      | none => none
      | some b => some { st with modelMatrices := ms, buffer := b }

/-- The update of line 197 applied `n` times to one matrix (`n` frames of an instance in the
active range). -/
def advance_n {R : Type} [CommRing R] (r : Mat4 R) : Nat → Mat4 R → Mat4 R
  | 0, model => model
  | n + 1, model => advance_n r n (r * model)

/-- The squared Euclidean norm of column `j` of the upper-left 3x3 block. -/
def scaleSq {R : Type} [CommRing R] (m : Mat4 R) (j : Fin 3) : R :=
  m 0 j.castSucc ^ 2 + m 1 j.castSucc ^ 2 + m 2 j.castSucc ^ 2

/-! ## Input handling (lines 271-341, 377-388) -/

/-- Lines 279-292, `CheckIsKeyClicked`: `getKey` is `glfwGetKey(window, ·)`; the result is the
returned flag and the new table `g_last_key_states`. -/
def CheckIsKeyClicked (getKey : Nat → Int) (last : Nat → Int) (key : Nat) :
    Bool × (Nat → Int) :=
  let cur_state := getKey key
  let last_state := last key
  if cur_state = GLFW_RELEASE then
    (decide (last_state = GLFW_PRESS), Function.update last key cur_state)
  else if cur_state = GLFW_PRESS then
    (false, Function.update last key cur_state)
  else (false, last)

/-- Lines 273-277, `ResetKeyStates`. -/
def ResetKeyStates : Nat → Int := fun _ => 0

/-- Lines 324-331: the four `camera.ProcessKeyboard` calls, recorded in call order. -/
def cameraKeys (getKey : Nat → Int) : List Camera_Movement :=
  (if getKey GLFW_KEY_W = GLFW_PRESS then [Camera_Movement.FORWARD] else []) ++
  (if getKey GLFW_KEY_S = GLFW_PRESS then [Camera_Movement.BACKWARD] else []) ++
  (if getKey GLFW_KEY_A = GLFW_PRESS then [Camera_Movement.LEFT] else []) ++
  (if getKey GLFW_KEY_D = GLFW_PRESS then [Camera_Movement.RIGHT] else [])

/-- Lines 296-341, `processInput`; `G` is the global `rotate_group`. -/
def processInput {R : Type} (G : Int) (getKey : Nat → Int) (st : State R) : State R :=
  if st.cursor_mode = GLFW_CURSOR_NORMAL then st
  else
    let tab := CheckIsKeyClicked getKey st.g_last_key_states GLFW_KEY_TAB
    if tab.1 then
      { st with cursor_mode := GLFW_CURSOR_NORMAL, g_last_key_states := ResetKeyStates }
    else
      let p := CheckIsKeyClicked getKey tab.2 GLFW_KEY_P
      let close := if getKey GLFW_KEY_ESCAPE = GLFW_PRESS then true else st.window_should_close
      let moves := st.camera_moves ++ cameraKeys getKey
      let up := CheckIsKeyClicked getKey p.2 GLFW_KEY_PAGE_UP
      if up.1 then
        { st with rotate_limit := min (st.rotate_limit + 1) G, g_last_key_states := up.2,
                  window_should_close := close, camera_moves := moves }
      else
        let down := CheckIsKeyClicked getKey up.2 GLFW_KEY_PAGE_DOWN
        if down.1 then
          { st with rotate_limit := max (st.rotate_limit - 1) 0, g_last_key_states := down.2,
                    window_should_close := close, camera_moves := moves }
        else
          { st with g_last_key_states := down.2, window_should_close := close,
                    camera_moves := moves }

/-- Lines 377-388, `mouse_button_callback`: a left press puts the cursor in disabled mode. -/
def mouse_button_callback {R : Type} (button action : Int) (st : State R) : State R :=
  if button = GLFW_MOUSE_BUTTON_LEFT ∧ action = GLFW_PRESS then
    { st with cursor_mode := GLFW_CURSOR_DISABLED }
  else st

/-- What `CheckIsKeyClicked` reports as a click of `key`: released now, pressed at the
previous check. -/
def isClick (getKey : Nat → Int) (last : Nat → Int) (key : Nat) : Prop :=
  getKey key = GLFW_RELEASE ∧ last key = GLFW_PRESS

/-! ## Start-up and the render loop (lines 121-161, 213-265) -/

/-- Lines 158-161 and the globals: the state on entry to the render loop.  `generated` is the
array `modelMatrices` as the generator loop (lines 129-154) left it;
`glBufferData(GL_ARRAY_BUFFER, amount * sizeof(glm::mat4), &modelMatrices[0], GL_STATIC_DRAW)`
uploads all of it.  Line 95 sets the cursor mode to normal. -/
def main_init {R : Type} (amount : Nat) (generated : List (Mat4 R)) : Option (State R) :=
  match glBufferData amount generated with
  | none => none
  | some b => some {
      modelMatrices := generated
      buffer := b
      rotate_limit := rotate_limit_init
      cursor_mode := GLFW_CURSOR_NORMAL
      g_last_key_states := fun _ => 0
      window_should_close := false
      camera_moves := [] }

/-- What happens to the state while the render loop runs: a call of `UpdatePos` (line 221),
a call of `processInput` (line 225) with the keys as `glfwGetKey` reports them, or a mouse
button event delivered by `glfwPollEvents` (line 264). -/
inductive Action
  | updatePos
  | processInput (getKey : Nat → Int)
  | mouseButton (button action : Int)

/-- One action on the state. -/
def step {R : Type} [CommRing R] (c s : R) (amount : Nat) (nums_per_group G : Int)
    (st : State R) : Action → Option (State R)
  | Action.updatePos => UpdatePos c s amount nums_per_group st
  | Action.processInput getKey => some (processInput G getKey st)
  | Action.mouseButton button action => some (mouse_button_callback button action st)

/-- A sequence of actions, in order; the first failing action fails the run. -/
def run {R : Type} [CommRing R] (c s : R) (amount : Nat) (nums_per_group G : Int) :
    State R → List Action → Option (State R)
  | st, [] => some st
  | st, a :: as =>
    match step c s amount nums_per_group G st a with
    | none => none
    | some st1 => run c s amount nums_per_group G st1 as

/-! ## The transform generator (lines 126-142) -/

/-- Line 131: `int index = i / nums_per_group;`.  The division is undefined for
`nums_per_group = 0`; a negative divisor is outside what the embedding covers. -/
def generator_index (i : Nat) (nums_per_group : Int) : Option Int :=
  if nums_per_group ≤ 0 then none else some ((i : Int) / nums_per_group)

/-- Line 132: `float radius = Radius - index * gap_size;`. -/
def generator_radius {K : Type} [LinearOrderedField K] (Radius gap_size : K) (index : Int) : K :=
  Radius - (index : K) * gap_size

/-- The `float` arithmetic the generator's position uses, as parameters: the conversion
`ofInt` of an `int` to `float`, the conversion `toInt` of `(int)x`, the four operations, the
literals `100.0f` and `0.4f`, and the library functions `sin` and `cos`. -/
structure FloatOps (F : Type) where
  ofInt : Int → F
  toInt : F → Int
  add : F → F → F
  sub : F → F → F
  mul : F → F → F
  div : F → F → F
  lit100 : F
  lit0_4 : F
  sin : F → F
  cos : F → F

/-- Lines 136, 138, 140: `(rand() % (int)(2 * offset * 100)) / 100.0f - offset`, `r` the value
`rand()` returned.  The `int` remainder `%` has no value for a zero divisor (undefined
behaviour, a division trap on the usual targets): `none`. -/
def displacement {F : Type} (ops : FloatOps F) (r : Int) (offset : F) : Option F :=
  let m : Int := ops.toInt (ops.mul (ops.mul (ops.ofInt 2) offset) (ops.ofInt 100))
  if m = 0 then none
  else some (ops.sub (ops.div (ops.ofInt (r.tmod m)) ops.lit100) offset)

/-- Lines 135-142: the position `(x, y, z)` handed to `glm::translate`, for the three values
`r1 r2 r3` that `rand()` returned in this order. -/
def generator_position {F : Type} (ops : FloatOps F) (angle radius offset : F)
    (r1 r2 r3 : Int) : Option (F × F × F) :=
  match displacement ops r1 offset with
  | none => none
  | some d1 =>
    let x := ops.add (ops.mul (ops.sin angle) radius) d1
    match displacement ops r2 offset with
    | none => none
    | some d2 =>
      let y := ops.mul d2 ops.lit0_4
      match displacement ops r3 offset with
      | none => none
      | some d3 =>
        let z := ops.add (ops.mul (ops.cos angle) radius) d3
        some (x, y, z)

/-- Exact rational arithmetic as an instance of the `float` operations, with `sin` and `cos`
fixed at their values at angle `0`; on the values `0`, `2` and `100` it agrees with
binary32. -/
def exactOps : FloatOps Rat where
  ofInt := fun n => (n : Rat)
  toInt := fun x => if 0 ≤ x then ⌊x⌋ else ⌈x⌉
  add := fun x y => x + y
  sub := fun x y => x - y
  mul := fun x y => x * y
  div := fun x y => x / y
  lit100 := 100
  lit0_4 := 2 / 5
  sin := fun _ => 0
  cos := fun _ => 1

/-! ## A small concrete configuration -/

/-- Four instances over the integers, all at the identity, device copy in step, `rotate_limit`
at its initial value `1`, cursor captured. -/
def exampleState : State Int where
  modelMatrices := [1, 1, 1, 1]
  buffer := [1, 1, 1, 1]
  rotate_limit := 1
  cursor_mode := GLFW_CURSOR_DISABLED
  g_last_key_states := fun _ => 0
  window_should_close := false
  camera_moves := []

/-! ## Lemmas on the rotate loop and the buffer calls -/

theorem rotateLoop_spec {R : Type} [CommRing R] (r : Mat4 R) :
    ∀ (n i : Nat) (ms : List (Mat4 R)), i + n ≤ ms.length →
      ∃ ms1, rotateLoop r n i ms = some ms1 ∧ ms1.length = ms.length ∧
        (∀ j, i ≤ j → j < i + n → ms1[j]? = (ms[j]?).map (fun model => r * model)) ∧
        (∀ j, (j < i ∨ i + n ≤ j) → ms1[j]? = ms[j]?) := by
  intro n
  induction n with
  | zero =>
    intro i ms _
    refine ⟨ms, rfl, rfl, ?_, ?_⟩
    · intro j h1 h2; omega
    · intro j _; rfl
  | succ n ih =>
    intro i ms h
    have hi : i < ms.length := by omega
    obtain ⟨ms1, h1, h2, h3, h4⟩ := ih (i + 1) (ms.set i (r * ms[i])) (by simp; omega)
    refine ⟨ms1, ?_, ?_, ?_, ?_⟩
    · simp only [rotateLoop, List.getElem?_eq_getElem hi]
      exact h1
    · simpa using h2
    · intro j hj1 hj2
      by_cases hji : j = i
      · subst hji
        rw [h4 j (Or.inl (Nat.lt_succ_self j))]
        simp [List.getElem?_eq_getElem hi, List.getElem?_set, hi]
      · rw [h3 j (by omega) (by omega), List.getElem?_set_ne (Ne.symm hji)]
    · intro j hj
      have hji : i ≠ j := by omega
      rw [h4 j (by omega), List.getElem?_set_ne hji]

theorem glBufferSubData_spec {M : Type} (buffer data : List M) (k : Nat)
    (hk : k ≤ buffer.length) (hd : k ≤ data.length) :
    ∃ b1, glBufferSubData buffer 0 k data = some b1 ∧ b1.length = buffer.length ∧
      (∀ i, i < k → b1[i]? = data[i]?) ∧ (∀ i, k ≤ i → b1[i]? = buffer[i]?) := by
  refine ⟨data.take k ++ buffer.drop k, ?_, ?_, ?_, ?_⟩
  · simp [glBufferSubData, hk, hd]
  · simp [List.length_take, List.length_drop]; omega
  · intro i hi
    rw [List.getElem?_append_left (by simp [List.length_take]; omega)]
    exact List.getElem?_take_of_lt hi
  · intro i hi
    have hl : (data.take k).length = k := by simp [List.length_take]; omega
    rw [List.getElem?_append_right (by omega), hl, List.getElem?_drop]
    congr 1; omega

theorem nums_per_group_eq (N : Nat) (G : Int) (hG : 0 < G) :
    nums_per_group N G = some ((N : Int) / G) := by
  simp [nums_per_group, not_le.mpr hG]

theorem nums_per_group_nonneg (N : Nat) (G : Int) (hG : 0 < G) : 0 ≤ (N : Int) / G :=
  Int.ediv_nonneg (Int.ofNat_nonneg N) (le_of_lt hG)

theorem limit_mul_le (N : Nat) (G rl : Int) (hG : 0 < G) (h1 : rl ≤ G) :
    rl * ((N : Int) / G) ≤ N :=
  calc rl * ((N : Int) / G) ≤ G * ((N : Int) / G) :=
        Int.mul_le_mul_of_nonneg_right h1 (nums_per_group_nonneg N G hG)
    _ = (N : Int) / G * G := Int.mul_comm _ _
    _ ≤ N := Int.ediv_mul_le _ (ne_of_gt hG)

theorem toInt32_eq (x : Int) (h0 : -2147483648 ≤ x) (h1 : x < 2147483648) :
    toInt32 x = x := by
  unfold toInt32
  omega

theorem toUInt32_eq (x : Int) (h0 : 0 ≤ x) (h1 : x < 4294967296) : toUInt32 x = x.toNat := by
  unfold toUInt32
  rw [Int.emod_eq_of_lt h0 h1]

theorem UpdatePos_end_formula (N : Nat) (npg rl : Int) (hN : (N : Int) < 2147483648)
    (h0 : 0 ≤ rl * npg) (h1 : rl * npg < 2147483648) :
    UpdatePos_end N npg rl = min (N : Int) (rl * npg) := by
  unfold UpdatePos_end
  rw [Int.mul_comm npg rl, toInt32_eq (rl * npg) (by omega) h1, Int.zero_add,
    toInt32_eq (rl * npg) (by omega) h1, toInt32_eq (N : Int) (by omega) hN]

theorem limit_mul_nonneg (N : Nat) (G rl : Int) (hG : 0 < G) (h0 : 0 ≤ rl) :
    0 ≤ rl * ((N : Int) / G) :=
  Int.mul_nonneg h0 (nums_per_group_nonneg N G hG)

theorem UpdatePos_end_min (N : Nat) (G rl : Int) (hN : (N : Int) < 2147483648) (hG : 0 < G)
    (h0 : 0 ≤ rl) (h1 : rl ≤ G) :
    UpdatePos_end N ((N : Int) / G) rl = min (N : Int) (rl * ((N : Int) / G)) :=
  UpdatePos_end_formula N _ rl hN (limit_mul_nonneg N G rl hG h0)
    (lt_of_le_of_lt (limit_mul_le N G rl hG h1) hN)

theorem UpdatePos_end_eq (N : Nat) (G rl : Int) (hN : (N : Int) < 2147483648) (hG : 0 < G)
    (h0 : 0 ≤ rl) (h1 : rl ≤ G) :
    UpdatePos_end N ((N : Int) / G) rl = rl * ((N : Int) / G) := by
  rw [UpdatePos_end_min N G rl hN hG h0 h1]
  exact min_eq_right (limit_mul_le N G rl hG h1)

theorem UpdatePos_end_nonneg (N : Nat) (G rl : Int) (hN : (N : Int) < 2147483648)
    (hG : 0 < G) (h0 : 0 ≤ rl) (h1 : rl ≤ G) : 0 ≤ UpdatePos_end N ((N : Int) / G) rl := by
  rw [UpdatePos_end_eq N G rl hN hG h0 h1]
  exact limit_mul_nonneg N G rl hG h0

theorem UpdatePos_end_le (N : Nat) (G rl : Int) (hN : (N : Int) < 2147483648) (hG : 0 < G)
    (h0 : 0 ≤ rl) (h1 : rl ≤ G) : UpdatePos_end N ((N : Int) / G) rl ≤ N := by
  rw [UpdatePos_end_eq N G rl hN hG h0 h1]
  exact limit_mul_le N G rl hG h1

/-- Above the range of `int` the cast on line 193 goes negative: for `amount = 2^31`,
`rotate_group = 8` (so `nums_per_group = 2^28`) and `rotate_limit = 0` the value of `end` is
`-2^31`, and the loop bound it converts to is the whole array. -/
theorem UpdatePos_end_above_int_range :
    nums_per_group 2147483648 8 = some 268435456 ∧
    UpdatePos_end 2147483648 268435456 0 = -2147483648 ∧
    toUInt32 (UpdatePos_end 2147483648 268435456 0) = 2147483648 := by
  refine ⟨by decide, by decide, by decide⟩

theorem UpdatePos_host_spec {R : Type} [CommRing R] (c s : R) (N : Nat) (G rl : Int)
    (host : List (Mat4 R)) (hN : (N : Int) < 2147483648) (hG : 0 < G)
    (hlen : host.length = N) (h0 : 0 ≤ rl) (h1 : rl ≤ G) :
    ∃ host1, UpdatePos_host c s N ((N : Int) / G) rl host = some host1 ∧ host1.length = N ∧
      (∀ i : Nat, (i : Int) < UpdatePos_end N ((N : Int) / G) rl →
        host1[i]? = (host[i]?).map (fun model => rot c s * model)) ∧
      (∀ i : Nat, UpdatePos_end N ((N : Int) / G) rl ≤ (i : Int) → host1[i]? = host[i]?) := by
  have hnn := UpdatePos_end_nonneg N G rl hN hG h0 h1
  have hle := UpdatePos_end_le N G rl hN hG h0 h1
  obtain ⟨e, he⟩ := Int.eq_ofNat_of_zero_le hnn
  have heN : e ≤ N := by omega
  obtain ⟨host1, g1, g2, g3, g4⟩ := rotateLoop_spec (rot c s) e 0 host (by omega)
  have hb : toUInt32 (UpdatePos_end N ((N : Int) / G) rl) = e := by
    rw [toUInt32_eq _ hnn (by omega), he]
    rfl
  have hs : toUInt32 UpdatePos_start = 0 := by decide
  refine ⟨host1, ?_, by omega, ?_, ?_⟩
  · simp only [UpdatePos_host, hb, hs]
    simpa using g1
  · intro i hi
    exact g3 i (Nat.zero_le i) (by omega)
  · intro i hi
    exact g4 i (Or.inr (by omega))

theorem UpdatePos_spec {R : Type} [CommRing R] (c s : R) (N : Nat) (G : Int)
    (st : State R) (hN : (N : Int) < 2147483648) (hG : 0 < G)
    (hlen : st.modelMatrices.length = N) (hbuf : st.buffer.length = N)
    (h0 : 0 ≤ st.rotate_limit) (h1 : st.rotate_limit ≤ G) :
    ∃ host1 b1,
      UpdatePos_host c s N ((N : Int) / G) st.rotate_limit st.modelMatrices = some host1 ∧
      glBufferSubData st.buffer 0 (UpdatePos_end N ((N : Int) / G) st.rotate_limit).toNat host1
        = some b1 ∧
      UpdatePos c s N ((N : Int) / G) st = some { st with modelMatrices := host1, buffer := b1 } ∧
      host1.length = N ∧ b1.length = N ∧
      (∀ i : Nat, (i : Int) < UpdatePos_end N ((N : Int) / G) st.rotate_limit →
        host1[i]? = (st.modelMatrices[i]?).map (fun model => rot c s * model) ∧
        b1[i]? = host1[i]?) ∧
      (∀ i : Nat, UpdatePos_end N ((N : Int) / G) st.rotate_limit ≤ (i : Int) →
        host1[i]? = st.modelMatrices[i]? ∧ b1[i]? = st.buffer[i]?) := by
  have hnn := UpdatePos_end_nonneg N G st.rotate_limit hN hG h0 h1
  have hle := UpdatePos_end_le N G st.rotate_limit hN hG h0 h1
  obtain ⟨host1, g1, g2, g3, g4⟩ :=
    UpdatePos_host_spec c s N G st.rotate_limit st.modelMatrices hN hG hlen h0 h1
  obtain ⟨b1, k1, k2, k3, k4⟩ := glBufferSubData_spec st.buffer host1
    (UpdatePos_end N ((N : Int) / G) st.rotate_limit).toNat (by omega) (by omega)
  have hsz : toInt32 (UpdatePos_end N ((N : Int) / G) st.rotate_limit - UpdatePos_start)
      = UpdatePos_end N ((N : Int) / G) st.rotate_limit := by
    rw [UpdatePos_start, Int.sub_zero]
    exact toInt32_eq _ (by omega) (by omega)
  refine ⟨host1, b1, g1, k1, ?_, g2, by omega, ?_, ?_⟩
  · simp only [UpdatePos, g1, hsz, if_neg (not_lt.mpr hnn)]
    simp [UpdatePos_start, k1]
  · intro i hi
    exact ⟨g3 i hi, k3 i (by omega)⟩
  · intro i hi
    exact ⟨g4 i hi, k4 i (by omega)⟩

theorem rot_eq {R : Type} [CommRing R] (c s : R) :
    rot c s = !![c, 0, s, 0; 0, 1, 0, 0; -s, 0, c, 0; 0, 0, 0, 1] := by
  ext i j
  fin_cases i <;> fin_cases j <;> simp [rot, glm_rotate, Matrix.vecHead, Matrix.vecTail]

/-! ## The claims -/

/-- C1: for every instance count `N` below `2^31` (the values the cast `(int)amount` of
line 193 keeps), group count `G > 0`, host array of `N` matrices and `rotate_limit` in
`[0, G]`, one run of `UpdatePos` succeeds and replaces `host[i]` by `rot * host[i]` for every
`i < min(N, rotate_limit * (N / G))`, `rot` being the yaw rotation about `(0,1,0)`, and leaves
`host[i]` unchanged for the other indices below `N`; for `N = 800`, `G = 8`,
`rotate_limit = 3` exactly the indices `[0, 300)` are rotated, and for `rotate_limit = 0` the
whole array is unchanged. -/
theorem UpdatePos_rotates_active_prefix {R : Type} [CommRing R] (c s : R) (N : Nat) (G : Int)
    (st : State R) (hN : N < 2 ^ 31) (hG : 0 < G) (hlen : st.modelMatrices.length = N)
    (hbuf : st.buffer.length = N) (h0 : 0 ≤ st.rotate_limit) (h1 : st.rotate_limit ≤ G) :
    rot c s = !![c, 0, s, 0; 0, 1, 0, 0; -s, 0, c, 0; 0, 0, 0, 1] ∧
    ∃ npg st1, nums_per_group N G = some npg ∧ UpdatePos c s N npg st = some st1 ∧
      st1.modelMatrices.length = N ∧
      (∀ i : Nat, (i : Int) < min (N : Int) (st.rotate_limit * ((N : Int) / G)) →
        ∃ model, st.modelMatrices[i]? = some model ∧
          st1.modelMatrices[i]? = some (rot c s * model)) ∧
      (∀ i : Nat, min (N : Int) (st.rotate_limit * ((N : Int) / G)) ≤ (i : Int) → i < N →
        st1.modelMatrices[i]? = st.modelMatrices[i]?) ∧
      (N = 800 → G = 8 → st.rotate_limit = 3 →
        (∀ i : Nat, i < 300 → ∃ model, st.modelMatrices[i]? = some model ∧
          st1.modelMatrices[i]? = some (rot c s * model)) ∧
        (∀ i : Nat, 300 ≤ i → i < 800 → st1.modelMatrices[i]? = st.modelMatrices[i]?)) ∧
      (st.rotate_limit = 0 → st1.modelMatrices = st.modelMatrices) := by
  refine ⟨rot_eq c s, ?_⟩
  have hN1 : (N : Int) < 2147483648 := by
    norm_num at hN
    omega
  obtain ⟨host1, b1, _, _, hU, hl1, _, hact, hrest⟩ :=
    UpdatePos_spec c s N G st hN1 hG hlen hbuf h0 h1
  rw [UpdatePos_end_min N G st.rotate_limit hN1 hG h0 h1] at hact hrest
  have hrot : ∀ i : Nat, (i : Int) < min (N : Int) (st.rotate_limit * ((N : Int) / G)) →
      ∃ model, st.modelMatrices[i]? = some model ∧ host1[i]? = some (rot c s * model) := by
    intro i hi
    have hiN : i < st.modelMatrices.length := by
      have := lt_of_lt_of_le hi (min_le_left _ _)
      omega
    refine ⟨st.modelMatrices[i], List.getElem?_eq_getElem hiN, ?_⟩
    rw [(hact i hi).1, List.getElem?_eq_getElem hiN]
    rfl
  refine ⟨(N : Int) / G, _, nums_per_group_eq N G hG, hU, hl1, hrot,
    fun i hi _ => (hrest i hi).1, ?_, ?_⟩
  · intro hN8 hG8 h3
    have hmin : min (N : Int) (st.rotate_limit * ((N : Int) / G)) = 300 := by
      subst hN8 hG8
      rw [h3]
      decide
    rw [hmin] at hrot hrest
    exact ⟨fun i hi => hrot i (by omega), fun i hi _ => (hrest i (by omega)).1⟩
  · intro hz
    apply List.ext_getElem?
    intro i
    refine (hrest i ?_).1
    rw [hz, Int.zero_mul]
    exact le_trans (min_le_right _ _) (Int.ofNat_nonneg i)

/-- C2: for every `N` below `2^31` (the values the cast `(int)amount` keeps) and `G > 0`,
the value `end` that line 193 of `UpdatePos` computes is `min(N, rotate_limit * (N / G))`
for `rotate_limit` in `[0, G]`, is non-decreasing in `rotate_limit` over `[0, G]`, is `0` at
`rotate_limit = 0` and is `N` at `rotate_limit = G` when `G` divides `N`. -/
theorem UpdatePos_end_monotone (N : Nat) (G : Int) (hN : N < 2 ^ 31) (hG : 0 < G) :
    ∃ npg, nums_per_group N G = some npg ∧
      (∀ rl : Int, 0 ≤ rl → rl ≤ G →
        UpdatePos_end N npg rl = min (N : Int) (rl * ((N : Int) / G))) ∧
      (∀ a b : Int, 0 ≤ a → a ≤ b → b ≤ G →
        UpdatePos_end N npg a ≤ UpdatePos_end N npg b) ∧
      UpdatePos_end N npg 0 = 0 ∧
      (G ∣ (N : Int) → UpdatePos_end N npg G = N) := by
  have hN1 : (N : Int) < 2147483648 := by
    norm_num at hN
    omega
  have hq := nums_per_group_nonneg N G hG
  refine ⟨(N : Int) / G, nums_per_group_eq N G hG,
    fun rl h0 h1 => UpdatePos_end_min N G rl hN1 hG h0 h1, ?_, ?_, ?_⟩
  · intro a b ha hab hb
    rw [UpdatePos_end_min N G a hN1 hG ha (le_trans hab hb),
      UpdatePos_end_min N G b hN1 hG (le_trans ha hab) hb]
    exact min_le_min_left _ (Int.mul_le_mul_of_nonneg_right hab hq)
  · rw [UpdatePos_end_min N G 0 hN1 hG (le_refl 0) (le_of_lt hG), Int.zero_mul]
    exact min_eq_right (Int.ofNat_nonneg N)
  · intro hdvd
    rw [UpdatePos_end_min N G G hN1 hG (le_of_lt hG) (le_refl G), Int.mul_ediv_cancel' hdvd]
    exact min_self _

/-- C1 at four instances in two groups with `rotate_limit = 1`. -/
theorem UpdatePos_rotates_active_prefix_witness :
    4 < 2 ^ 31 ∧ (0 : Int) < 2 ∧ exampleState.modelMatrices.length = 4 ∧
    exampleState.buffer.length = 4 ∧
    0 ≤ exampleState.rotate_limit ∧ exampleState.rotate_limit ≤ 2 ∧
    ∃ npg st1, nums_per_group 4 2 = some npg ∧
      UpdatePos (1 : Int) 0 4 npg exampleState = some st1 ∧
      st1.modelMatrices.length = 4 := by
  refine ⟨by decide, by decide, rfl, rfl, by decide, by decide, ?_⟩
  obtain ⟨_, npg, st1, h1, h2, h3, _⟩ :=
    UpdatePos_rotates_active_prefix (1 : Int) 0 4 2 exampleState (by decide) (by decide)
      rfl rfl (by decide) (by decide)
  exact ⟨npg, st1, h1, h2, h3⟩

/-- C2 at the source's `amount = 100000` and `rotate_group = 8`. -/
theorem UpdatePos_end_monotone_witness :
    100000 < 2 ^ 31 ∧ (0 : Int) < rotate_group ∧
    ∃ npg, nums_per_group 100000 rotate_group = some npg ∧
      UpdatePos_end 100000 npg 0 = 0 ∧
      ((rotate_group : Int) ∣ ((100000 : Nat) : Int) →
        UpdatePos_end 100000 npg rotate_group = ((100000 : Nat) : Int)) := by
  refine ⟨by decide, by decide, ?_⟩
  obtain ⟨npg, h1, _, _, h3, h4⟩ :=
    UpdatePos_end_monotone 100000 rotate_group (by decide) (by decide)
  exact ⟨npg, h1, h3, h4⟩

/-- C4: with the device buffer an array of `N` matrices and `0 <= k <= N`, the upload of
`UpdatePos` (`glBufferSubData` at offset `start = 0`, `k` matrices taken from the host array)
succeeds and yields a buffer of length `N` whose indices `[0, k)` hold the host matrices and
whose indices `[k, N)` are as before. -/
theorem glBufferSubData_prefix_upload {M : Type} (N k : Nat) (buffer host : List M)
    (hbuf : buffer.length = N) (hhost : host.length = N) (hk : k ≤ N) :
    ∃ b1, glBufferSubData buffer UpdatePos_start.toNat k (host.drop UpdatePos_start.toNat)
        = some b1 ∧
      b1.length = N ∧
      (∀ i : Nat, i < k → ∃ m, host[i]? = some m ∧ b1[i]? = some m) ∧
      (∀ i : Nat, k ≤ i → i < N → b1[i]? = buffer[i]?) := by
  obtain ⟨b1, h1, h2, h3, h4⟩ := glBufferSubData_spec buffer host k (by omega) (by omega)
  refine ⟨b1, by simpa [UpdatePos_start] using h1, by omega, ?_, fun i hi _ => h4 i hi⟩
  intro i hi
  have hiN : i < host.length := by omega
  exact ⟨host[i], List.getElem?_eq_getElem hiN, by rw [h3 i hi, List.getElem?_eq_getElem hiN]⟩

/-- C4 at a buffer of three entries, two of them uploaded. -/
theorem glBufferSubData_prefix_upload_witness :
    [10, 20, 30].length = 3 ∧ [1, 2, 3].length = 3 ∧ 2 ≤ 3 ∧
    ∃ b1, glBufferSubData [10, 20, 30] UpdatePos_start.toNat 2
        ([1, 2, 3].drop UpdatePos_start.toNat) = some b1 ∧ b1.length = 3 := by
  refine ⟨rfl, rfl, by decide, ?_⟩
  obtain ⟨b1, h1, h2, _⟩ :=
    glBufferSubData_prefix_upload 3 2 [10, 20, 30] [1, 2, 3] rfl rfl (by decide)
  exact ⟨b1, h1, h2⟩

/-- C5: for `N` below `2^31` (the values the cast `(int)amount` keeps) with `N / G > 0`,
`rotate_limit` in `[0, G]` and an instance index `i < N`, the generator's group index
`i / (N / G)` is defined, and `i` lies in the active update range
`i < min(N, rotate_limit * (N / G))`, the `end` of `UpdatePos`, if and only if that group
index is less than `rotate_limit`. -/
theorem active_iff_group_lt_limit (N : Nat) (G rl : Int) (i : Nat) (hN : N < 2 ^ 31)
    (hG : 0 < G) (hq : 0 < (N : Int) / G) (h0 : 0 ≤ rl) (h1 : rl ≤ G) (hi : i < N) :
    ∃ npg index, nums_per_group N G = some npg ∧ generator_index i npg = some index ∧
      index = (i : Int) / ((N : Int) / G) ∧
      UpdatePos_end N npg rl = min (N : Int) (rl * ((N : Int) / G)) ∧
      ((i : Int) < UpdatePos_end N npg rl ↔ index < rl) := by
  have hN1 : (N : Int) < 2147483648 := by
    norm_num at hN
    omega
  have hend := UpdatePos_end_min N G rl hN1 hG h0 h1
  refine ⟨(N : Int) / G, (i : Int) / ((N : Int) / G), nums_per_group_eq N G hG, ?_, rfl,
    hend, ?_⟩
  · simp [generator_index, not_le.mpr hq]
  · rw [hend, Int.ediv_lt_iff_lt_mul hq]
    have hiN : (i : Int) < N := by exact_mod_cast hi
    constructor
    · intro h
      exact lt_of_lt_of_le h (min_le_right _ _)
    · intro h
      exact lt_min hiN h

/-- C5 at eight instances in four groups, `rotate_limit = 2`, instance `5`. -/
theorem active_iff_group_lt_limit_witness :
    8 < 2 ^ 31 ∧ (0 : Int) < 4 ∧ (0 : Int) < ((8 : Nat) : Int) / 4 ∧ (0 : Int) ≤ 2 ∧
    (2 : Int) ≤ 4 ∧ 5 < 8 ∧
    ∃ npg index, nums_per_group 8 4 = some npg ∧ generator_index 5 npg = some index ∧
      (((5 : Nat) : Int) < UpdatePos_end 8 npg 2 ↔ index < 2) := by
  refine ⟨by decide, by decide, by decide, by decide, by decide, by decide, ?_⟩
  obtain ⟨npg, index, h1, h2, _, _, h3⟩ :=
    active_iff_group_lt_limit 8 4 2 5 (by decide) (by decide) (by decide) (by decide)
      (by decide) (by decide)
  exact ⟨npg, index, h1, h2, h3⟩

/-- C9: for `N` below `2^31` (the values the cast `(int)amount` keeps), under
`0 <= rotate_limit <= G` with `G > 0`: `rotate_limit * (N / G) <= N`, so
`end = rotate_limit * (N / G)` without the clamp deciding, `0 <= end <= N`, every index the
rotate loop touches is inside the host array, the uploaded range fits the device buffer of
`N` matrices, and `UpdatePos` never takes an out-of-range branch (it returns a state). -/
theorem UpdatePos_in_bounds {R : Type} [CommRing R] (c s : R) (N : Nat) (G : Int)
    (st : State R) (hN : N < 2 ^ 31) (hG : 0 < G) (hlen : st.modelMatrices.length = N)
    (hbuf : st.buffer.length = N) (h0 : 0 ≤ st.rotate_limit) (h1 : st.rotate_limit ≤ G) :
    st.rotate_limit * ((N : Int) / G) ≤ N ∧
    ∃ npg, nums_per_group N G = some npg ∧
      UpdatePos_end N npg st.rotate_limit = st.rotate_limit * ((N : Int) / G) ∧
      0 ≤ UpdatePos_end N npg st.rotate_limit ∧ UpdatePos_end N npg st.rotate_limit ≤ N ∧
      (∀ i : Nat, toUInt32 UpdatePos_start ≤ i →
        i < toUInt32 (UpdatePos_end N npg st.rotate_limit) →
        i < N ∧ (st.modelMatrices[i]?).isSome = true) ∧
      (0 ≤ toInt32 (UpdatePos_end N npg st.rotate_limit - UpdatePos_start) ∧
        UpdatePos_start.toNat
          + (toInt32 (UpdatePos_end N npg st.rotate_limit - UpdatePos_start)).toNat
          ≤ st.buffer.length) ∧
      (∃ host1, UpdatePos_host c s N npg st.rotate_limit st.modelMatrices = some host1) ∧
      (∃ st1, UpdatePos c s N npg st = some st1) := by
  have hN1 : (N : Int) < 2147483648 := by
    norm_num at hN
    omega
  have hnn := UpdatePos_end_nonneg N G st.rotate_limit hN1 hG h0 h1
  have hle := UpdatePos_end_le N G st.rotate_limit hN1 hG h0 h1
  obtain ⟨host1, b1, hh, _, hU, _⟩ := UpdatePos_spec c s N G st hN1 hG hlen hbuf h0 h1
  have hsz : toInt32 (UpdatePos_end N ((N : Int) / G) st.rotate_limit - UpdatePos_start)
      = UpdatePos_end N ((N : Int) / G) st.rotate_limit := by
    rw [UpdatePos_start, Int.sub_zero]
    exact toInt32_eq _ (by omega) (by omega)
  refine ⟨limit_mul_le N G _ hG h1, (N : Int) / G, nums_per_group_eq N G hG,
    UpdatePos_end_eq N G _ hN1 hG h0 h1, hnn, hle, ?_, ?_, ⟨host1, hh⟩, ⟨_, hU⟩⟩
  · intro i _ hi
    rw [toUInt32_eq _ hnn (by omega)] at hi
    have hiN : i < N := by omega
    refine ⟨hiN, ?_⟩
    rw [List.getElem?_eq_getElem (by omega)]
    rfl
  · rw [hsz]
    refine ⟨hnn, ?_⟩
    simp only [UpdatePos_start]
    omega

/-- C9 at four instances in two groups with `rotate_limit = 1`. -/
theorem UpdatePos_in_bounds_witness :
    4 < 2 ^ 31 ∧ (0 : Int) < 2 ∧ exampleState.modelMatrices.length = 4 ∧
    exampleState.buffer.length = 4 ∧
    0 ≤ exampleState.rotate_limit ∧ exampleState.rotate_limit ≤ 2 ∧
    exampleState.rotate_limit * (((4 : Nat) : Int) / 2) ≤ ((4 : Nat) : Int) := by
  refine ⟨by decide, by decide, rfl, rfl, by decide, by decide, ?_⟩
  exact (UpdatePos_in_bounds (1 : Int) 0 4 2 exampleState (by decide) (by decide) rfl rfl
    (by decide) (by decide)).1

/-! ### Input handling -/

theorem CheckIsKeyClicked_fst (getKey last : Nat → Int) (key : Nat) :
    (CheckIsKeyClicked getKey last key).1 = true ↔ isClick getKey last key := by
  unfold CheckIsKeyClicked isClick
  by_cases h : getKey key = GLFW_RELEASE
  · simp [h]
  · have hne : ¬ GLFW_PRESS = GLFW_RELEASE := by decide
    by_cases h2 : getKey key = GLFW_PRESS <;> simp [h, h2, hne]

theorem CheckIsKeyClicked_snd_other (getKey last : Nat → Int) (key k : Nat) (hk : k ≠ key) :
    (CheckIsKeyClicked getKey last key).2 k = last k := by
  unfold CheckIsKeyClicked
  by_cases h : getKey key = GLFW_RELEASE
  · simp [h, Function.update_noteq hk]
  · have hne : ¬ GLFW_PRESS = GLFW_RELEASE := by decide
    by_cases h2 : getKey key = GLFW_PRESS <;> simp [h, h2, hne, Function.update_noteq hk]

theorem isClick_after_check (getKey last : Nat → Int) (key k : Nat) (hk : k ≠ key) :
    isClick getKey (CheckIsKeyClicked getKey last key).2 k ↔ isClick getKey last k := by
  unfold isClick
  rw [CheckIsKeyClicked_snd_other getKey last key k hk]

theorem processInput_host_buffer {R : Type} (G : Int) (getKey : Nat → Int) (st : State R) :
    (processInput G getKey st).modelMatrices = st.modelMatrices ∧
    (processInput G getKey st).buffer = st.buffer := by
  dsimp only [processInput]
  split_ifs <;> exact ⟨rfl, rfl⟩

theorem processInput_limit_cases {R : Type} (G : Int) (getKey : Nat → Int) (st : State R) :
    (processInput G getKey st).rotate_limit = st.rotate_limit ∨
    (processInput G getKey st).rotate_limit = min (st.rotate_limit + 1) G ∨
    (processInput G getKey st).rotate_limit = max (st.rotate_limit - 1) 0 := by
  dsimp only [processInput]
  split_ifs <;> simp

theorem processInput_limit_bounds {R : Type} (G : Int) (getKey : Nat → Int) (st : State R)
    (h0 : 0 ≤ st.rotate_limit) (h1 : st.rotate_limit ≤ G) :
    0 ≤ (processInput G getKey st).rotate_limit ∧
      (processInput G getKey st).rotate_limit ≤ G := by
  have hG : 0 ≤ G := le_trans h0 h1
  rcases processInput_limit_cases G getKey st with h | h | h <;> rw [h]
  · exact ⟨h0, h1⟩
  · exact ⟨le_min (by omega) hG, min_le_right _ _⟩
  · exact ⟨le_max_right _ _, max_le (by omega) hG⟩

theorem processInput_page_up {R : Type} (G : Int) (getKey : Nat → Int) (st : State R)
    (hmode : st.cursor_mode ≠ GLFW_CURSOR_NORMAL)
    (htab : ¬ isClick getKey st.g_last_key_states GLFW_KEY_TAB)
    (hup : isClick getKey st.g_last_key_states GLFW_KEY_PAGE_UP) :
    (processInput G getKey st).rotate_limit = min (st.rotate_limit + 1) G := by
  have htab1 : ¬ (CheckIsKeyClicked getKey st.g_last_key_states GLFW_KEY_TAB).1 = true := by
    rw [CheckIsKeyClicked_fst]; exact htab
  have hup1 : (CheckIsKeyClicked getKey (CheckIsKeyClicked getKey
      (CheckIsKeyClicked getKey st.g_last_key_states GLFW_KEY_TAB).2 GLFW_KEY_P).2
      GLFW_KEY_PAGE_UP).1 = true := by
    rw [CheckIsKeyClicked_fst, isClick_after_check _ _ _ _ (by decide),
      isClick_after_check _ _ _ _ (by decide)]
    exact hup
  dsimp only [processInput]
  rw [if_neg hmode, if_neg htab1, if_pos hup1]

theorem processInput_page_down {R : Type} (G : Int) (getKey : Nat → Int) (st : State R)
    (hmode : st.cursor_mode ≠ GLFW_CURSOR_NORMAL)
    (htab : ¬ isClick getKey st.g_last_key_states GLFW_KEY_TAB)
    (hup : ¬ isClick getKey st.g_last_key_states GLFW_KEY_PAGE_UP)
    (hdown : isClick getKey st.g_last_key_states GLFW_KEY_PAGE_DOWN) :
    (processInput G getKey st).rotate_limit = max (st.rotate_limit - 1) 0 := by
  have htab1 : ¬ (CheckIsKeyClicked getKey st.g_last_key_states GLFW_KEY_TAB).1 = true := by
    rw [CheckIsKeyClicked_fst]; exact htab
  have hup1 : ¬ (CheckIsKeyClicked getKey (CheckIsKeyClicked getKey
      (CheckIsKeyClicked getKey st.g_last_key_states GLFW_KEY_TAB).2 GLFW_KEY_P).2
      GLFW_KEY_PAGE_UP).1 = true := by
    rw [CheckIsKeyClicked_fst, isClick_after_check _ _ _ _ (by decide),
      isClick_after_check _ _ _ _ (by decide)]
    exact hup
  have hdown1 : (CheckIsKeyClicked getKey (CheckIsKeyClicked getKey (CheckIsKeyClicked getKey
      (CheckIsKeyClicked getKey st.g_last_key_states GLFW_KEY_TAB).2 GLFW_KEY_P).2
      GLFW_KEY_PAGE_UP).2 GLFW_KEY_PAGE_DOWN).1 = true := by
    rw [CheckIsKeyClicked_fst, isClick_after_check _ _ _ _ (by decide),
      isClick_after_check _ _ _ _ (by decide), isClick_after_check _ _ _ _ (by decide)]
    exact hdown
  dsimp only [processInput]
  rw [if_neg hmode, if_neg htab1, if_neg hup1, if_pos hdown1]

/-- C3: `0 <= rotate_limit <= rotate_group` (`rotate_group = 8`) holds for the initial value
`1` and is preserved by every execution of `processInput`, whatever the cursor mode and the
keys; a PAGE_UP click reported by `CheckIsKeyClicked` sets `rotate_limit` to
`min(rotate_limit + 1, rotate_group)`, a PAGE_DOWN click reported by it sets it to
`max(rotate_limit - 1, 0)`, so incrementing from `rotate_group` stays there and decrementing
from `0` stays at `0`.  (`processInput` asks for these clicks only with the cursor captured
and no TAB click, and for PAGE_DOWN only without a PAGE_UP click; in normal cursor mode
`rotate_limit` is left alone.) -/
theorem processInput_keeps_rotate_limit_in_range {R : Type} (getKey : Nat → Int)
    (st : State R) (h0 : 0 ≤ st.rotate_limit) (h1 : st.rotate_limit ≤ rotate_group) :
    rotate_group = 8 ∧
    (0 ≤ rotate_limit_init ∧ rotate_limit_init ≤ rotate_group) ∧
    (0 ≤ (processInput rotate_group getKey st).rotate_limit ∧
      (processInput rotate_group getKey st).rotate_limit ≤ rotate_group) ∧
    (st.cursor_mode ≠ GLFW_CURSOR_NORMAL →
      ¬ isClick getKey st.g_last_key_states GLFW_KEY_TAB →
      isClick getKey st.g_last_key_states GLFW_KEY_PAGE_UP →
        (processInput rotate_group getKey st).rotate_limit
          = min (st.rotate_limit + 1) rotate_group ∧
        (st.rotate_limit = rotate_group →
          (processInput rotate_group getKey st).rotate_limit = rotate_group)) ∧
    (st.cursor_mode ≠ GLFW_CURSOR_NORMAL →
      ¬ isClick getKey st.g_last_key_states GLFW_KEY_TAB →
      ¬ isClick getKey st.g_last_key_states GLFW_KEY_PAGE_UP →
      isClick getKey st.g_last_key_states GLFW_KEY_PAGE_DOWN →
        (processInput rotate_group getKey st).rotate_limit = max (st.rotate_limit - 1) 0 ∧
        (st.rotate_limit = 0 → (processInput rotate_group getKey st).rotate_limit = 0)) ∧
    (st.cursor_mode = GLFW_CURSOR_NORMAL →
      (processInput rotate_group getKey st).rotate_limit = st.rotate_limit) := by
  refine ⟨rfl, by decide, processInput_limit_bounds rotate_group getKey st h0 h1, ?_, ?_, ?_⟩
  · intro hmode htab hup
    have h := processInput_page_up rotate_group getKey st hmode htab hup
    refine ⟨h, fun hG => ?_⟩
    rw [h, hG]
    exact min_eq_right (by omega)
  · intro hmode htab hup hdown
    have h := processInput_page_down rotate_group getKey st hmode htab hup hdown
    refine ⟨h, fun hz => ?_⟩
    rw [h, hz]
    decide
  · intro hmode
    dsimp only [processInput]
    rw [if_pos hmode]

/-- C3 at the small configuration (`rotate_limit = 1`, cursor captured), PAGE_UP pressed. -/
theorem processInput_keeps_rotate_limit_in_range_witness :
    0 ≤ exampleState.rotate_limit ∧ exampleState.rotate_limit ≤ rotate_group ∧
    0 ≤ (processInput rotate_group (fun _ => GLFW_PRESS) exampleState).rotate_limit ∧
    (processInput rotate_group (fun _ => GLFW_PRESS) exampleState).rotate_limit
      ≤ rotate_group := by
  refine ⟨by decide, by decide, ?_⟩
  exact (processInput_keeps_rotate_limit_in_range (fun _ => GLFW_PRESS) exampleState
    (by decide) (by decide)).2.2.1

/-! ### The device copy -/

theorem UpdatePos_mirror {R : Type} [CommRing R] (c s : R) (N : Nat) (G : Int)
    (st : State R) (hN : (N : Int) < 2147483648) (hG : 0 < G)
    (hmir : st.buffer = st.modelMatrices) (hlen : st.modelMatrices.length = N)
    (h0 : 0 ≤ st.rotate_limit) (h1 : st.rotate_limit ≤ G) :
    ∃ st1, UpdatePos c s N ((N : Int) / G) st = some st1 ∧ st1.buffer = st1.modelMatrices ∧
      st1.modelMatrices.length = N ∧ st1.rotate_limit = st.rotate_limit := by
  obtain ⟨host1, b1, _, _, hU, hl1, _, hact, hrest⟩ :=
    UpdatePos_spec c s N G st hN hG hlen (by rw [hmir]; exact hlen) h0 h1
  refine ⟨_, hU, ?_, hl1, rfl⟩
  show b1 = host1
  apply List.ext_getElem?
  intro i
  by_cases hi : (i : Int) < UpdatePos_end N ((N : Int) / G) st.rotate_limit
  · exact (hact i hi).2
  · have h := hrest i (not_lt.mp hi)
    rw [h.1, h.2, hmir]

theorem step_mirror {R : Type} [CommRing R] (c s : R) (N : Nat) (G : Int)
    (st : State R) (a : Action) (hN : (N : Int) < 2147483648) (hG : 0 < G)
    (hmir : st.buffer = st.modelMatrices) (hlen : st.modelMatrices.length = N)
    (h0 : 0 ≤ st.rotate_limit) (h1 : st.rotate_limit ≤ G) :
    ∃ st1, step c s N ((N : Int) / G) G st a = some st1 ∧ st1.buffer = st1.modelMatrices ∧
      st1.modelMatrices.length = N ∧ 0 ≤ st1.rotate_limit ∧ st1.rotate_limit ≤ G := by
  cases a with
  | updatePos =>
    obtain ⟨st1, hU, hm, hl, hr⟩ := UpdatePos_mirror c s N G st hN hG hmir hlen h0 h1
    exact ⟨st1, hU, hm, hl, by rw [hr]; exact h0, by rw [hr]; exact h1⟩
  | processInput getKey =>
    have hb := processInput_host_buffer G getKey st
    have hr := processInput_limit_bounds G getKey st h0 h1
    exact ⟨_, rfl, by rw [hb.1, hb.2]; exact hmir, by rw [hb.1]; exact hlen, hr.1, hr.2⟩
  | mouseButton button action =>
    refine ⟨_, rfl, ?_⟩
    unfold mouse_button_callback
    split_ifs <;> exact ⟨hmir, hlen, h0, h1⟩

theorem run_mirror {R : Type} [CommRing R] (c s : R) (N : Nat) (G : Int)
    (hN : (N : Int) < 2147483648) (hG : 0 < G) (actions : List Action) :
    ∀ st : State R, st.buffer = st.modelMatrices → st.modelMatrices.length = N →
      0 ≤ st.rotate_limit → st.rotate_limit ≤ G →
      ∃ stn, run c s N ((N : Int) / G) G st actions = some stn ∧
        stn.buffer = stn.modelMatrices ∧
        stn.modelMatrices.length = N ∧ 0 ≤ stn.rotate_limit ∧ stn.rotate_limit ≤ G := by
  induction actions with
  | nil =>
    intro st hmir hlen h0 h1
    exact ⟨st, rfl, hmir, hlen, h0, h1⟩
  | cons a as ih =>
    intro st hmir hlen h0 h1
    obtain ⟨st1, hs, hm1, hl1, h01, h11⟩ := step_mirror c s N G st a hN hG hmir hlen h0 h1
    obtain ⟨stn, hr, hrest⟩ := ih st1 hm1 hl1 h01 h11
    refine ⟨stn, ?_, hrest⟩
    simp only [run, hs]
    exact hr

/-- C10: for `N` below `2^31` (the values the cast `(int)amount` keeps) and with the device
buffer an explicit array, the device copy equals the whole host array after the initial
upload (`glBufferData` of all `N` matrices), and from every state in which it does, with
`rotate_limit` in `[0, G]`, every finite interleaving of `UpdatePos` calls, `processInput`
calls and mouse-button events runs without failure and ends in a state in which
`device[i] = host[i]` for all `i < N` and `rotate_limit` is again in `[0, G]`. -/
theorem device_mirrors_host {R : Type} [CommRing R] (c s : R) (N : Nat) (G : Int)
    (generated : List (Mat4 R)) (hN : N < 2 ^ 31) (hG : 0 < G)
    (hgen : generated.length = N) :
    ∃ npg st0, nums_per_group N G = some npg ∧ main_init N generated = some st0 ∧
      st0.modelMatrices = generated ∧ st0.buffer = st0.modelMatrices ∧
      (0 ≤ st0.rotate_limit ∧ st0.rotate_limit ≤ G) ∧
      (∀ actions : List Action, ∃ stn, run c s N npg G st0 actions = some stn ∧
        stn.modelMatrices.length = N ∧ stn.buffer.length = N ∧
        (∀ i : Nat, i < N → stn.buffer[i]? = stn.modelMatrices[i]?) ∧
        (0 ≤ stn.rotate_limit ∧ stn.rotate_limit ≤ G)) ∧
      (∀ st : State R, st.buffer = st.modelMatrices → st.modelMatrices.length = N →
        0 ≤ st.rotate_limit → st.rotate_limit ≤ G →
        ∀ actions : List Action, ∃ stn, run c s N npg G st actions = some stn ∧
          stn.buffer = stn.modelMatrices ∧ stn.modelMatrices.length = N ∧
          0 ≤ stn.rotate_limit ∧ stn.rotate_limit ≤ G) := by
  subst hgen
  have hN1 : ((generated.length : Nat) : Int) < 2147483648 := by
    norm_num at hN
    omega
  have hr0 : (0 : Int) ≤ rotate_limit_init := by decide
  have hr1 : rotate_limit_init ≤ G := by
    have : rotate_limit_init = 1 := rfl
    omega
  refine ⟨(generated.length : Int) / G, {
      modelMatrices := generated
      buffer := generated
      rotate_limit := rotate_limit_init
      cursor_mode := GLFW_CURSOR_NORMAL
      g_last_key_states := fun _ => 0
      window_should_close := false
      camera_moves := [] }, nums_per_group_eq _ G hG, ?_, rfl, rfl, ⟨hr0, hr1⟩, ?_, ?_⟩
  · simp [main_init, glBufferData]
  · intro actions
    obtain ⟨stn, h1, h2, h3, h4, h5⟩ :=
      run_mirror c s generated.length G hN1 hG actions
        { modelMatrices := generated
          buffer := generated
          rotate_limit := rotate_limit_init
          cursor_mode := GLFW_CURSOR_NORMAL
          g_last_key_states := fun _ => 0
          window_should_close := false
          camera_moves := [] } rfl rfl hr0 hr1
    exact ⟨stn, h1, h3, by rw [h2]; exact h3, fun i _ => by rw [h2], h4, h5⟩
  · intro st hmir hlen h0 h1 actions
    exact run_mirror c s generated.length G hN1 hG actions st hmir hlen h0 h1

/-! ### Repeated updates -/

theorem rot_det {R : Type} [CommRing R] (c s : R) (h : c ^ 2 + s ^ 2 = 1) :
    Matrix.det (rot c s) = 1 := by
  rw [rot_eq, Matrix.det_succ_row_zero]
  simp [Fin.sum_univ_succ, Matrix.det_fin_three, Matrix.submatrix, Fin.succAbove,
    Matrix.vecHead, Matrix.vecTail]
  linear_combination h

theorem rot_scaleSq {R : Type} [CommRing R] (c s : R) (h : c ^ 2 + s ^ 2 = 1) (m : Mat4 R)
    (j : Fin 3) : scaleSq (rot c s * m) j = scaleSq m j := by
  rw [rot_eq]
  simp [scaleSq, Matrix.mul_apply, Fin.sum_univ_four, Matrix.vecHead, Matrix.vecTail]
  linear_combination (m 0 j.castSucc ^ 2 + m 2 j.castSucc ^ 2) * h

theorem advance_n_eq_pow {R : Type} [CommRing R] (r : Mat4 R) (n : Nat) :
    ∀ m : Mat4 R, advance_n r n m = r ^ n * m := by
  induction n with
  | zero => intro m; simp [advance_n]
  | succ n ih => intro m; rw [advance_n, ih, pow_succ, Matrix.mul_assoc]

theorem advance_n_invariants {R : Type} [CommRing R] (c s : R) (h : c ^ 2 + s ^ 2 = 1)
    (n : Nat) : ∀ m : Mat4 R,
      Matrix.det (advance_n (rot c s) n m) = Matrix.det m ∧
      ∀ j : Fin 3, scaleSq (advance_n (rot c s) n m) j = scaleSq m j := by
  induction n with
  | zero => intro m; exact ⟨rfl, fun _ => rfl⟩
  | succ n ih =>
    intro m
    obtain ⟨h1, h2⟩ := ih (rot c s * m)
    refine ⟨?_, fun j => ?_⟩
    · rw [advance_n, h1, Matrix.det_mul, rot_det c s h, one_mul]
    · rw [advance_n, h2 j, rot_scaleSq c s h]

/-- What `advance_n` stands for: for `N` below `2^31` and `rotate_limit` in `[0, G]`, `n`
consecutive runs of `UpdatePos` succeed, keep `rotate_limit`, apply `advance_n rot n` to
every instance of the active range and leave the other instances as they were. -/
theorem run_updatePos_n {R : Type} [CommRing R] (c s : R) (N : Nat) (G : Int)
    (hN : (N : Int) < 2147483648) (hG : 0 < G) (n : Nat) :
    ∀ st : State R, st.modelMatrices.length = N → st.buffer.length = N →
      0 ≤ st.rotate_limit → st.rotate_limit ≤ G →
      ∃ stn, run c s N ((N : Int) / G) G st (List.replicate n Action.updatePos) = some stn ∧
        stn.rotate_limit = st.rotate_limit ∧ stn.modelMatrices.length = N ∧
        stn.buffer.length = N ∧
        (∀ i : Nat, (i : Int) < UpdatePos_end N ((N : Int) / G) st.rotate_limit →
          stn.modelMatrices[i]? = (st.modelMatrices[i]?).map (advance_n (rot c s) n)) ∧
        (∀ i : Nat, UpdatePos_end N ((N : Int) / G) st.rotate_limit ≤ (i : Int) →
          stn.modelMatrices[i]? = st.modelMatrices[i]?) := by
  induction n with
  | zero =>
    intro st hlen hbuf _ _
    refine ⟨st, rfl, rfl, hlen, hbuf, fun i _ => ?_, fun i _ => rfl⟩
    cases st.modelMatrices[i]? <;> rfl
  | succ n ih =>
    intro st hlen hbuf h0 h1
    obtain ⟨host1, b1, _, _, hU, hl1, hb1, hact, hrest⟩ :=
      UpdatePos_spec c s N G st hN hG hlen hbuf h0 h1
    obtain ⟨stn, hr, hlim, hln, hbn, hactn, hrestn⟩ :=
      ih { st with modelMatrices := host1, buffer := b1 } hl1 hb1 h0 h1
    refine ⟨stn, ?_, hlim, hln, hbn, fun i hi => ?_, fun i hi => ?_⟩
    · simp only [List.replicate_succ, run, step, hU]
      exact hr
    · rw [hactn i hi]
      show Option.map _ host1[i]? = _
      rw [(hact i hi).1]
      cases st.modelMatrices[i]? <;> rfl
    · rw [hrestn i hi]
      exact (hrest i hi).1

/-- C6: over the real numbers, with `rot = rotate(identity, 0.002, (0,1,0))`, the matrix
obtained from `M` by `n` per-frame updates of an instance in the active range is
`rot ^ n * M`; it has the determinant of `M` and the scale factors of `M`, the Euclidean
norms of the three columns of the upper-left 3x3 block (for every `n`, so also for
`n = 1000`). -/
theorem advance_n_is_pure_rotation (M : Mat4 ℝ) (n : Nat) :
    advance_n (rot (Real.cos 0.002) (Real.sin 0.002)) n M
      = rot (Real.cos 0.002) (Real.sin 0.002) ^ n * M ∧
    Matrix.det (rot (Real.cos 0.002) (Real.sin 0.002) ^ n * M) = Matrix.det M ∧
    (∀ j : Fin 3, Real.sqrt (scaleSq (rot (Real.cos 0.002) (Real.sin 0.002) ^ n * M) j)
      = Real.sqrt (scaleSq M j)) ∧
    Matrix.det (rot (Real.cos 0.002) (Real.sin 0.002) ^ 1000 * M) = Matrix.det M ∧
    (∀ j : Fin 3, Real.sqrt (scaleSq (rot (Real.cos 0.002) (Real.sin 0.002) ^ 1000 * M) j)
      = Real.sqrt (scaleSq M j)) := by
  have h : Real.cos 0.002 ^ 2 + Real.sin 0.002 ^ 2 = 1 := Real.cos_sq_add_sin_sq 0.002
  have key : ∀ k : Nat,
      Matrix.det (rot (Real.cos 0.002) (Real.sin 0.002) ^ k * M) = Matrix.det M ∧
      ∀ j : Fin 3, Real.sqrt (scaleSq (rot (Real.cos 0.002) (Real.sin 0.002) ^ k * M) j)
        = Real.sqrt (scaleSq M j) := by
    intro k
    obtain ⟨h1, h2⟩ := advance_n_invariants (Real.cos 0.002) (Real.sin 0.002) h k M
    rw [advance_n_eq_pow] at h1
    refine ⟨h1, fun j => ?_⟩
    have := h2 j
    rw [advance_n_eq_pow] at this
    rw [this]
  exact ⟨advance_n_eq_pow _ n M, (key n).1, (key n).2, (key 1000).1, (key 1000).2⟩

/-- C10 at four instances in two groups, a short run. -/
theorem device_mirrors_host_witness :
    4 < 2 ^ 31 ∧ (0 : Int) < 2 ∧ ([1, 1, 1, 1] : List (Mat4 Int)).length = 4 ∧
    ∃ npg st0, nums_per_group 4 2 = some npg ∧
      main_init 4 ([1, 1, 1, 1] : List (Mat4 Int)) = some st0 ∧
      ∃ stn, run (1 : Int) 0 4 npg 2 st0
          [Action.updatePos, Action.mouseButton GLFW_MOUSE_BUTTON_LEFT GLFW_PRESS,
            Action.processInput (fun _ => GLFW_RELEASE), Action.updatePos] = some stn ∧
        ∀ i : Nat, i < 4 → stn.buffer[i]? = stn.modelMatrices[i]? := by
  refine ⟨by decide, by decide, rfl, ?_⟩
  obtain ⟨npg, st0, h1, h2, _, _, _, h3, _⟩ :=
    device_mirrors_host (1 : Int) 0 4 2 ([1, 1, 1, 1] : List (Mat4 Int)) (by decide)
      (by decide) rfl
  obtain ⟨stn, h4, _, _, h5, _⟩ := h3 [Action.updatePos,
    Action.mouseButton GLFW_MOUSE_BUTTON_LEFT GLFW_PRESS,
    Action.processInput (fun _ => GLFW_RELEASE), Action.updatePos]
  exact ⟨npg, st0, h1, h2, stn, h4, h5⟩

/-! ### The transform generator -/

/-- C7, the code at `offset = 0`: in every `float` arithmetic in which `2 * 0` is `0`,
`0 * 100` is `0` and `(int)0` is `0` (binary32 among them), the displacement of lines 136,
138 and 140 takes the remainder of `rand()` modulo `(int)(2 * offset * 100) = 0`: it has no
value, whatever `rand()` returns, instead of the value `0` the claim gives it, and the
generator yields no position on the ring's circle. -/
theorem displacement_zero_offset_undefined {F : Type} (ops : FloatOps F)
    (angle radius : F) (r1 r2 r3 : Int)
    (h2 : ops.mul (ops.ofInt 2) (ops.ofInt 0) = ops.ofInt 0)
    (h100 : ops.mul (ops.ofInt 0) (ops.ofInt 100) = ops.ofInt 0)
    (hint : ops.toInt (ops.ofInt 0) = 0) :
    ops.toInt (ops.mul (ops.mul (ops.ofInt 2) (ops.ofInt 0)) (ops.ofInt 100)) = 0 ∧
    displacement ops r1 (ops.ofInt 0) = none ∧
    displacement ops r1 (ops.ofInt 0) ≠ some (ops.ofInt 0) ∧
    generator_position ops angle radius (ops.ofInt 0) r1 r2 r3 = none := by
  have hm : ops.toInt (ops.mul (ops.mul (ops.ofInt 2) (ops.ofInt 0)) (ops.ofInt 100)) = 0 := by
    rw [h2, h100, hint]
  have hd : ∀ r : Int, displacement ops r (ops.ofInt 0) = none := by
    intro r
    simp [displacement, hm]
  refine ⟨hm, hd r1, ?_, ?_⟩
  · rw [hd r1]
    exact Option.noConfusion
  · simp [generator_position, hd]

/-- C7, the code at `offset = 0` in exact arithmetic, ring radius `150`, angle `0`, `rand()`
returning `7`, `8`, `9`. -/
theorem displacement_zero_offset_undefined_witness :
    exactOps.mul (exactOps.ofInt 2) (exactOps.ofInt 0) = exactOps.ofInt 0 ∧
    exactOps.mul (exactOps.ofInt 0) (exactOps.ofInt 100) = exactOps.ofInt 0 ∧
    exactOps.toInt (exactOps.ofInt 0) = 0 ∧
    displacement exactOps 7 (exactOps.ofInt 0) = none ∧
    generator_position exactOps 0 150 (exactOps.ofInt 0) 7 8 9 = none := by
  have h2 : exactOps.mul (exactOps.ofInt 2) (exactOps.ofInt 0) = exactOps.ofInt 0 := by
    simp [exactOps]
  have h100 : exactOps.mul (exactOps.ofInt 0) (exactOps.ofInt 100) = exactOps.ofInt 0 := by
    simp [exactOps]
  have hint : exactOps.toInt (exactOps.ofInt 0) = 0 := by
    simp [exactOps]
  obtain ⟨_, hd, _, hp⟩ :=
    displacement_zero_offset_undefined exactOps 0 150 7 8 9 h2 h100 hint
  exact ⟨h2, h100, hint, hd, hp⟩

/-- C8, as stated, fails: with `amount = 100001` and `rotate_group = 8` (so that
`nums_per_group = 12500`) the last instance `i = 100000` gets group index `8`, above
`G - 1 = 7`, and with the source's `Radius = 150`, `gap_size = 15` its ring radius `30` is
below `Radius - (G - 1) * gap_size = 45`. -/
theorem generator_index_exceeds_last_group :
    (8 : Int) ≤ ((100001 : Nat) : Int) ∧ ¬ ((8 : Int) ∣ ((100001 : Nat) : Int)) ∧
    100000 < 100001 ∧
    nums_per_group 100001 8 = some 12500 ∧ generator_index 100000 12500 = some 8 ∧
    ¬ ((8 : Int) ≤ 8 - 1) ∧
    generator_radius (150 : ℚ) 15 8 = 30 ∧
    ¬ ((150 : ℚ) - (8 - 1) * 15 ≤ generator_radius (150 : ℚ) 15 8) := by
  refine ⟨by decide, by decide, by decide, by decide, by decide, by decide, ?_, ?_⟩ <;>
    norm_num [generator_radius]

/-- C8, amended: for `N >= G > 0` and an instance index `i < N` the group index
`i / (N / G)` is defined, non-negative and below `2 * G`; it is at most `G - 1` exactly for
the `i < G * (N / G)` instances of the `G` full rings, whose ring radius is at least
`radius - (G - 1) * gap_size` (for `gap_size >= 0`); the remainder instances
`i >= G * (N / G)`, which exist when `G` does not divide `N`, get a group index of at least
`G`: they lie on further rings of radius at most `radius - G * gap_size`.  When `G` divides
`N` every group index is at most `G - 1`. -/
theorem generator_index_bounds {K : Type} [LinearOrderedField K] (N : Nat) (G : Int) (i : Nat)
    (Radius gap_size : K) (hG : 0 < G) (hNG : G ≤ (N : Int)) (hi : i < N)
    (hgap : 0 ≤ gap_size) :
    ∃ npg index, nums_per_group N G = some npg ∧ 0 < npg ∧
      generator_index i npg = some index ∧ index = (i : Int) / ((N : Int) / G) ∧
      0 ≤ index ∧ index < 2 * G ∧
      (index ≤ G - 1 ↔ (i : Int) < G * ((N : Int) / G)) ∧
      ((i : Int) < G * ((N : Int) / G) →
        Radius - ((G : K) - 1) * gap_size ≤ generator_radius Radius gap_size index) ∧
      (G * ((N : Int) / G) ≤ (i : Int) →
        G ≤ index ∧ generator_radius Radius gap_size index ≤ Radius - (G : K) * gap_size) ∧
      (G ∣ (N : Int) → index ≤ G - 1) ∧
      (¬ G ∣ (N : Int) → G * ((N : Int) / G) ≤ ((N - 1 : Nat) : Int) ∧ N - 1 < N) := by
  have hq : 0 < (N : Int) / G := by
    have : (1 : Int) ≤ (N : Int) / G := Int.le_ediv_of_mul_le hG (by omega)
    omega
  have hiN : (i : Int) < N := by exact_mod_cast hi
  have hmul : G * ((N : Int) / G) ≤ N := by
    rw [Int.mul_comm]
    exact Int.ediv_mul_le _ (ne_of_gt hG)
  have hidx0 : 0 ≤ (i : Int) / ((N : Int) / G) :=
    Int.ediv_nonneg (Int.ofNat_nonneg i) (le_of_lt hq)
  have hlow : (i : Int) / ((N : Int) / G) ≤ G - 1 ↔ (i : Int) < G * ((N : Int) / G) := by
    rw [← Int.ediv_lt_iff_lt_mul hq]
    omega
  refine ⟨(N : Int) / G, (i : Int) / ((N : Int) / G), nums_per_group_eq N G hG, hq, ?_, rfl,
    hidx0, ?_, hlow, ?_, ?_, ?_, ?_⟩
  · simp [generator_index, not_le.mpr hq]
  · rw [Int.ediv_lt_iff_lt_mul hq]
    have h1 : (N : Int) < ((N : Int) / G + 1) * G := Int.lt_ediv_add_one_mul_self _ hG
    have h2 : G ≤ G * ((N : Int) / G) := by
      have := Int.mul_le_mul_of_nonneg_left (show (1 : Int) ≤ (N : Int) / G by omega)
        (le_of_lt hG)
      simpa using this
    have h3 : ((N : Int) / G + 1) * G = G * ((N : Int) / G) + G := by ring
    have h4 : 2 * G * ((N : Int) / G) = G * ((N : Int) / G) + G * ((N : Int) / G) := by ring
    rw [h4]
    rw [h3] at h1
    omega
  · intro h
    have hle : (i : Int) / ((N : Int) / G) ≤ G - 1 := hlow.mpr h
    have hc : (((i : Int) / ((N : Int) / G) : Int) : K) ≤ (G : K) - 1 := by
      exact_mod_cast hle
    unfold generator_radius
    have := mul_le_mul_of_nonneg_right hc hgap
    linarith
  · intro h
    have hge : G ≤ (i : Int) / ((N : Int) / G) := (Int.le_ediv_iff_mul_le hq).mpr h
    refine ⟨hge, ?_⟩
    have hc : (G : K) ≤ (((i : Int) / ((N : Int) / G) : Int) : K) := by
      exact_mod_cast hge
    unfold generator_radius
    have := mul_le_mul_of_nonneg_right hc hgap
    linarith
  · intro hdvd
    rw [hlow, Int.mul_ediv_cancel' hdvd]
    exact hiN
  · intro hndvd
    have hne : G * ((N : Int) / G) ≠ N := by
      intro h
      exact hndvd ⟨(N : Int) / G, h.symm⟩
    have hN1 : 1 ≤ N := by omega
    refine ⟨?_, by omega⟩
    have hcast : ((N - 1 : Nat) : Int) = (N : Int) - 1 := by omega
    rw [hcast]
    omega

/-- C8 amended, at nine instances in eight groups, the last instance. -/
theorem generator_index_bounds_witness :
    (0 : Int) < 8 ∧ (8 : Int) ≤ ((9 : Nat) : Int) ∧ 8 < 9 ∧ (0 : ℚ) ≤ 15 ∧
    ∃ npg index, nums_per_group 9 8 = some npg ∧ generator_index 8 npg = some index ∧
      0 ≤ index ∧ index < 2 * 8 := by
  refine ⟨by decide, by decide, by decide, by norm_num, ?_⟩
  obtain ⟨npg, index, h1, _, h2, _, h3, h4, _⟩ :=
    generator_index_bounds 9 8 8 (150 : ℚ) 15 (by decide) (by decide) (by decide)
      (by norm_num)
  exact ⟨npg, index, h1, h2, h3, h4⟩

end AsteroidsInstanced
